import Mathlib

/-!
Verification of the monitoring/sniping core of `server.py` (Artemis NYC, a
Resy reservation sniper).  The functions `check_all_watches`, `check_watch`,
`try_snipe` and `log_activity` of the source are embedded shallowly below:
the SQLite tables become lists inside a `DB` structure, the four remote
Resy calls become a record `Api` of pure functions, and every remote call
actually issued is recorded in an explicit trace (`List ApiCall`).
Python exceptions that escape `check_watch` (only `date.fromisoformat` can
raise there) are modelled with `Except`.
-/

deriving instance DecidableEq for Except

namespace ResySniper

/-! ## Calendar model (Python `datetime.date`)

The source iterates days with `date.fromisoformat`, `date.toordinal`,
`date.fromordinal` and `date.isoformat`.  These standard-library functions
are reimplemented here: a date is its proleptic-Gregorian ordinal
(`0001-01-01` is ordinal 1), exactly as in CPython.  -/

def isLeap (y : Nat) : Bool :=
  (y % 4 == 0 && y % 100 != 0) || y % 400 == 0

def daysInMonth (y m : Nat) : Nat :=
  if m == 2 then (if isLeap y then 29 else 28)
  else if m == 4 || m == 6 || m == 9 || m == 11 then 30
  else 31

def daysBeforeMonth (y m : Nat) : Nat :=
  (List.range (m - 1)).foldl (fun acc i => acc + daysInMonth y (i + 1)) 0

/-- Ordinal of the date `y-m-d`, as in `datetime.date.toordinal`. -/
def toOrdinal (y m d : Nat) : Nat :=
  let py := y - 1
  365 * py + py / 4 - py / 100 + py / 400 + daysBeforeMonth y m + d

/-- Python `str.split(sep)` with an explicit one-character separator
(splits on every occurrence, keeping empty components). -/
def splitChars (sep : Char) (cs : List Char) : List (List Char) :=
  cs.foldr (fun c acc => if c == sep then [] :: acc else (c :: acc.headD []) :: acc.tail) [[]]

def digitsToNat (cs : List Char) : Nat :=
  cs.foldl (fun n c => n * 10 + (c.toNat - 48)) 0

def parseNatDigits (s : String) : Option Nat :=
  if s.length > 0 && s.toList.all Char.isDigit then some (digitsToNat s.toList) else none

/-- Parse a `YYYY-MM-DD` string to an ordinal, as in
`datetime.date.fromisoformat`; `none` models the raised `ValueError`. -/
def parseIsoDate (s : String) : Option Nat :=
  match (splitChars '-' s.toList).map String.mk with
  | [ys, ms, ds] =>
    if ys.length == 4 && ms.length == 2 && ds.length == 2 then
      match parseNatDigits ys, parseNatDigits ms, parseNatDigits ds with
      | some y, some m, some d =>
        if 1 ≤ y && y ≤ 9999 && 1 ≤ m && m ≤ 12 && 1 ≤ d && d ≤ daysInMonth y m
        then some (toOrdinal y m d) else none
      | _, _, _ => none
    else none
  | _ => none

def findMonthAux : Nat → Nat → Nat → Nat → Nat × Nat × Nat
  | 0, y, m, n => (y, m, n + 1)
  | fuel + 1, y, m, n =>
    let dim := daysInMonth y m
    if n < dim then (y, m, n + 1)
    else findMonthAux fuel y (m + 1) (n - dim)

/-- Inverse of `toOrdinal`, as in `datetime.date.fromordinal`. -/
def fromOrdinal (o : Nat) : Nat × Nat × Nat :=
  let n := o - 1
  let n400 := n / 146097
  let n := n % 146097
  let n100 := n / 36524
  let n := n % 36524
  let n4 := n / 1461
  let n := n % 1461
  let n1 := n / 365
  let n := n % 365
  let year := n400 * 400 + n100 * 100 + n4 * 4 + n1 + 1
  if n1 == 4 || n100 == 4 then (year - 1, 12, 31)
  else findMonthAux 12 year 1 n

def pad2 (n : Nat) : String :=
  if n < 10 then "0" ++ toString n else toString n

def pad4 (n : Nat) : String :=
  if n < 10 then "000" ++ toString n
  else if n < 100 then "00" ++ toString n
  else if n < 1000 then "0" ++ toString n
  else toString n

/-- `datetime.date.isoformat` of a date given by its ordinal. -/
def ordinalToIso (o : Nat) : String :=
  let ymd := fromOrdinal o
  pad4 ymd.1 ++ "-" ++ pad2 ymd.2.1 ++ "-" ++ pad2 ymd.2.2

/-- Ordinals of the loop `while current <= end` of `check_watch`
(inclusive, empty when the range is reversed). -/
def dayRange (startOrd endOrd : Nat) : List Nat :=
  (List.range (endOrd + 1 - startOrd)).map (fun i => startOrd + i)

/-! ## Data model (SQLite rows of `server.py`) -/

/-- A row of the `watches` table; `snipe_mode` and `active` are SQLite
integers used only for truthiness, modelled as `Bool`. -/
structure Watch where
  id : Nat
  venueId : String
  venueName : String
  partySize : Nat
  dateStart : String
  dateEnd : Option String
  timeEarliest : Option String
  timeLatest : Option String
  snipeMode : Bool
  active : Bool
  lastChecked : Option String
  deriving DecidableEq, Repr

/-- A row of the `found_slots` table (`booked` is the 0/1 integer flag,
modelled as `Bool`). -/
structure FoundSlot where
  id : Nat
  watchId : Nat
  venueName : String
  date : String
  time : String
  partySize : Nat
  configToken : String
  booked : Bool
  deriving DecidableEq, Repr

/-- A row of the `activity` table. -/
structure Activity where
  watchId : Option Nat
  type : String
  message : String
  deriving DecidableEq, Repr

/-- The `settings` key/value table, restricted to the keys the monitor
reads; `none` is an absent row, `some ""` an empty value. -/
structure Settings where
  apiKey : Option String
  authToken : Option String
  deriving DecidableEq, Repr

/-- The mutable database state seen by the monitor.  `nextSlotId` models
the AUTOINCREMENT id of `found_slots`. -/
structure DB where
  watches : List Watch
  foundSlots : List FoundSlot
  activity : List Activity
  nextSlotId : Nat
  deriving DecidableEq, Repr

/-- Python truthiness of an optional TEXT value (`None` and `""` falsy). -/
def truthy : Option String → Bool
  | none => false
  | some s => !s.isEmpty

/-! ## External Resy API (black box) -/

/-- A slot as consumed by `check_watch`: `slot["date"]["start"]` and
`slot["config"]["token"]`, both defaulting to `""`. -/
structure Slot where
  start : String
  configToken : String
  deriving DecidableEq, Repr

/-- One venue of `result["results"]["venues"]`. -/
structure Venue where
  slots : List Slot
  deriving DecidableEq, Repr

/-- The remote API as pure functions.  `resy_find`, `resy_get_details` and
`resy_book` never raise (they catch internally and return a dict that may
contain `"error"`); `.error` is that case.  For `getDetails`, `.ok tok` is
a successful response whose `book_token.value` is `tok` (possibly `""`). -/
structure Api where
  find : String → String → Nat → Except String (List Venue)
  getDetails : String → String → Nat → Except String String
  book : String → Except String Unit

/-- Trace entry: one outgoing remote call. -/
inductive ApiCall where
  | find (venueId day : String) (partySize : Nat)
  | details (configId day : String) (partySize : Nat)
  | book (bookToken : String)
  deriving DecidableEq, Repr

/-! ## Operations of `server.py` -/

/-- `log_activity` (line 306): append a row to the `activity` table. -/
def log_activity (db : DB) (watchId : Option Nat) (ty msg : String) : DB :=
  { db with activity := db.activity ++ [⟨watchId, ty, msg⟩] }

/-- The `snipe` activity message of line 283. -/
def snipeAttemptMsg (watch : Watch) (day timeStr : String) : String :=
  "⚡ Attempting to snipe " ++ watch.venueName ++ " " ++ day ++ " " ++ timeStr ++ "..."

/-- The `booked` activity message of line 301. -/
def bookedMsg (watch : Watch) (day timeStr : String) : String :=
  "✅ BOOKED! " ++ watch.venueName ++ " " ++ day ++ " at " ++ timeStr

/-- `try_snipe` (lines 281-304): log the attempt, fetch booking details,
extract the book token, book, and on success mark the matching
`found_slots` rows booked.  Returns the new state and the calls made. -/
def try_snipe (api : Api) (watch : Watch) (configToken day timeStr : String)
    (settings : Settings) (db : DB) : DB × List ApiCall :=
  let db := log_activity db (some watch.id) "snipe" (snipeAttemptMsg watch day timeStr)
  match api.getDetails configToken day watch.partySize with
  | .error e =>
    (log_activity db (some watch.id) "error" ("Failed to get details: " ++ e),
     [ApiCall.details configToken day watch.partySize])
  | .ok bookToken =>
    if bookToken.isEmpty then
      (log_activity db (some watch.id) "error" "No book token received",
       [ApiCall.details configToken day watch.partySize])
    else
      match api.book bookToken with
      | .error e =>
        (log_activity db (some watch.id) "error" ("Booking failed: " ++ e),
         [ApiCall.details configToken day watch.partySize, ApiCall.book bookToken])
      | .ok _ =>
        let db := log_activity db (some watch.id) "booked" (bookedMsg watch day timeStr)
        let db := { db with foundSlots := db.foundSlots.map (fun fs =>
          if fs.watchId == watch.id && fs.date == day && fs.time == timeStr
          then { fs with booked := true } else fs) }
        (db, [ApiCall.details configToken day watch.partySize, ApiCall.book bookToken])

/-- Lines 246-247: `start_time.split(" ")[-1] if " " in start_time else
start_time` (the two branches coincide as the last split component). -/
def timePartOf (startTime : String) : String :=
  String.mk ((splitChars ' ' startTime.toList).getLastD startTime.toList)

/-- Lexicographic (code point) comparison of strings as character lists:
this is the order Python uses for `t < watch["time_earliest"]`. -/
def lexLtChars : List Char → List Char → Bool
  | [], [] => false
  | [], _ :: _ => true
  | _ :: _, [] => false
  | a :: as, b :: bs => if a < b then true else if b < a then false else lexLtChars as bs

def strLt (a b : String) : Bool := lexLtChars a.toList b.toList

/-- Lines 246-252: the time-window filter of `check_watch`.  `true` means
the slot survives and proceeds to deduplication. -/
def slotKept (watch : Watch) (slot : Slot) : Bool :=
  if slot.start.isEmpty then true
  else if truthy watch.timeEarliest && truthy watch.timeLatest then
    let t := (timePartOf slot.start).take 5
    if strLt t (watch.timeEarliest.getD "") || strLt (watch.timeLatest.getD "") t then false
    else true
  else true

/-- Lines 257-260: the dedup lookup `SELECT id FROM found_slots WHERE
watch_id=? AND date=? AND time=? AND booked=0` (truthiness of the row). -/
def covered (db : DB) (wid : Nat) (day t : String) : Bool :=
  db.foundSlots.any (fun r =>
    r.watchId == wid && r.date == day && r.time == t && r.booked == false)

/-- The row inserted at lines 263-266 (booked defaults to 0). -/
def newSlotRow (db : DB) (watch : Watch) (dayStr : String) (slot : Slot) : FoundSlot :=
  { id := db.nextSlotId, watchId := watch.id, venueName := watch.venueName,
    date := dayStr, time := slot.start, partySize := watch.partySize,
    configToken := slot.configToken, booked := false }

/-- The `found` activity message of lines 267-269. -/
def foundMsg (watch : Watch) (dayStr startTime : String) : String :=
  "🎯 Slot found! " ++ watch.venueName ++ " - " ++ dayStr ++ " at " ++ startTime ++
    " for " ++ toString watch.partySize

/-- Lines 241-273: handling of one slot inside `check_watch` — time filter,
dedup lookup, insert + `found` event, and the snipe trigger (only reached
for a newly inserted slot). -/
def processSlot (api : Api) (watch : Watch) (settings : Settings)
    (dayStr : String) (slot : Slot) (db : DB) : DB × List ApiCall :=
  if slotKept watch slot then
    if covered db watch.id dayStr slot.start then (db, [])
    else
      let db2 := { db with
        foundSlots := db.foundSlots ++ [newSlotRow db watch dayStr slot],
        nextSlotId := db.nextSlotId + 1 }
      let db3 := log_activity db2 (some watch.id) "found" (foundMsg watch dayStr slot.start)
      if watch.snipeMode && !slot.configToken.isEmpty && truthy settings.authToken then
        try_snipe api watch slot.configToken dayStr slot.start settings db3
      else (db3, [])
  else (db, [])

/-- The `for slot in slots` loop (line 241). -/
def runSlots (api : Api) (watch : Watch) (settings : Settings) (dayStr : String) :
    List Slot → DB → DB × List ApiCall
  | [], db => (db, [])
  | s :: rest, db =>
    let r1 := processSlot api watch settings dayStr s db
    let r2 := runSlots api watch settings dayStr rest r1.1
    (r2.1, r1.2 ++ r2.2)

/-- The `for venue in venues` loop (line 239). -/
def runVenues (api : Api) (watch : Watch) (settings : Settings) (dayStr : String) :
    List Venue → DB → DB × List ApiCall
  | [], db => (db, [])
  | v :: rest, db =>
    let r1 := runSlots api watch settings dayStr v.slots db
    let r2 := runVenues api watch settings dayStr rest r1.1
    (r2.1, r1.2 ++ r2.2)

/-- Lines 230-243: one day of the scan — call `resy_find`; a result
carrying `"error"` skips the day silently. -/
def processDay (api : Api) (watch : Watch) (settings : Settings)
    (dayStr : String) (db : DB) : DB × List ApiCall :=
  match api.find watch.venueId dayStr watch.partySize with
  | .error _ => (db, [ApiCall.find watch.venueId dayStr watch.partySize])
  | .ok venues =>
    let r := runVenues api watch settings dayStr venues db
    (r.1, ApiCall.find watch.venueId dayStr watch.partySize :: r.2)

/-- The `while current <= end` loop (line 229). -/
def runDays (api : Api) (watch : Watch) (settings : Settings) :
    List Nat → DB → DB × List ApiCall
  | [], db => (db, [])
  | d :: rest, db =>
    let r1 := processDay api watch settings (ordinalToIso d) db
    let r2 := runDays api watch settings rest r1.1
    (r2.1, r1.2 ++ r2.2)

/-- Line 222: `date_end = watch.get("date_end") or date_start` (`None`
and `""` both fall back to `date_start`). -/
def effectiveDateEnd (watch : Watch) : String :=
  match watch.dateEnd with
  | none => watch.dateStart
  | some s => if s.isEmpty then watch.dateStart else s

/-- Line 278: `UPDATE watches SET last_checked=datetime(now) WHERE id=?`. -/
def setLastChecked (db : DB) (wid : Nat) (now : String) : DB :=
  { db with watches := db.watches.map (fun w =>
    if w.id == wid then { w with lastChecked := some now } else w) }

/-- `check_watch` (lines 218-279): parse the date range (the only point
where an exception escapes, modelled as `.error`), scan each day, then
update the `last_checked` of the watch to the current time `now`. -/
def check_watch (api : Api) (now : String) (watch : Watch) (settings : Settings)
    (db : DB) : Except String (DB × List ApiCall) :=
  match parseIsoDate watch.dateStart with
  | none => .error ("Invalid isoformat string: " ++ watch.dateStart)
  | some startOrd =>
    match parseIsoDate (effectiveDateEnd watch) with
    | none => .error ("Invalid isoformat string: " ++ effectiveDateEnd watch)
    | some endOrd =>
      let r := runDays api watch settings (dayRange startOrd endOrd) db
      .ok (setLastChecked r.1 watch.id now, r.2)

/-- The `for w in watches` loop of `check_all_watches` (lines 211-215): a
failing `check_watch` is caught and logged with the id of that watch, and the
remaining watches are still scanned. -/
def runWatches (api : Api) (now : String) (settings : Settings) :
    List Watch → DB → DB × List ApiCall
  | [], db => (db, [])
  | w :: rest, db =>
    match check_watch api now w settings db with
    | .ok r1 =>
      let r2 := runWatches api now settings rest r1.1
      (r2.1, r1.2 ++ r2.2)
    | .error e =>
      let db1 := log_activity db (some w.id) "error"
        ("Error checking " ++ w.venueName ++ ": " ++ e)
      runWatches api now settings rest db1

/-- `check_all_watches` (lines 202-216): fetch the active watches, and if
no `api_key` is configured return at once; otherwise scan each watch. -/
def check_all_watches (api : Api) (now : String) (settings : Settings)
    (db : DB) : DB × List ApiCall :=
  let watches := db.watches.filter (fun w => w.active)
  if truthy settings.apiKey then runWatches api now settings watches db
  else (db, [])

/-! ## Basic lemmas -/

@[simp] lemma log_activity_foundSlots (db : DB) (wi : Option Nat) (ty msg : String) :
    (log_activity db wi ty msg).foundSlots = db.foundSlots := rfl

@[simp] lemma log_activity_watches (db : DB) (wi : Option Nat) (ty msg : String) :
    (log_activity db wi ty msg).watches = db.watches := rfl

@[simp] lemma log_activity_activity (db : DB) (wi : Option Nat) (ty msg : String) :
    (log_activity db wi ty msg).activity = db.activity ++ [⟨wi, ty, msg⟩] := rfl

/-- The executable `lexLtChars` agrees with the lexicographic order on
character lists underlying the Mathlib linear order on `String`. -/
lemma lexLtChars_iff : ∀ as bs : List Char, lexLtChars as bs = true ↔ as < bs
  | [], [] => by
    simp only [lexLtChars, Bool.false_eq_true, false_iff]
    intro h
    cases h
  | [], _ :: _ => by
    simp only [lexLtChars, true_iff]
    exact List.Lex.nil
  | _ :: _, [] => by
    simp only [lexLtChars, Bool.false_eq_true, false_iff]
    intro h
    cases h
  | a :: as, b :: bs => by
    simp only [lexLtChars]
    split_ifs with h1 h2
    · simp only [true_iff]
      exact List.Lex.rel h1
    · simp only [Bool.false_eq_true, false_iff]
      intro h
      cases h with
      | cons h => exact absurd h2 (lt_irrefl a)
      | rel h => exact h1 h
    · have hab : a = b := le_antisymm (not_lt.mp h2) (not_lt.mp h1)
      subst hab
      rw [lexLtChars_iff as bs]
      constructor
      · exact fun h => List.Lex.cons h
      · intro h
        cases h with
        | cons h => exact h
        | rel h => exact absurd h h1

/-- The executable comparison agrees with `<` on `String`. -/
lemma strLt_iff_lt (a b : String) : strLt a b = true ↔ a < b :=
  (lexLtChars_iff a.toList b.toList).trans String.lt_iff_toList_lt.symm

/-- The time-window filter in closed form, on a slot that has a start
timestamp and a fully specified window: survival is exactly lexicographic
membership in the closed interval. -/
lemma slotKept_iff_aux (w : Watch) (s : Slot)
    (hs : s.start.isEmpty = false)
    (he : truthy w.timeEarliest = true) (hl : truthy w.timeLatest = true) :
    slotKept w s = true ↔
      (w.timeEarliest.getD "" ≤ (timePartOf s.start).take 5 ∧
       (timePartOf s.start).take 5 ≤ w.timeLatest.getD "") := by
  unfold slotKept
  rw [hs, he, hl]
  simp only [Bool.false_eq_true, if_false, Bool.and_self, if_true]
  split_ifs with h
  · simp only [Bool.false_eq_true, false_iff]
    rw [Bool.or_eq_true] at h
    rcases h with h | h
    · exact fun hc => absurd hc.1 (not_le.mpr ((strLt_iff_lt _ _).mp h))
    · exact fun hc => absurd hc.2 (not_le.mpr ((strLt_iff_lt _ _).mp h))
  · rw [Bool.or_eq_true, not_or] at h
    simp only [true_iff]
    refine ⟨not_lt.mp (fun hc => h.1 ?_), not_lt.mp (fun hc => h.2 ?_)⟩
    · exact (strLt_iff_lt _ _).mpr hc
    · exact (strLt_iff_lt _ _).mpr hc

/-! ## Concrete fixtures for witnesses and counterexamples -/

def wBase : Watch :=
  { id := 7, venueId := "v1", venueName := "Carbone", partySize := 2,
    dateStart := "2024-05-01", dateEnd := some "2024-05-01",
    timeEarliest := some "17:00", timeLatest := some "22:00",
    snipeMode := false, active := true, lastChecked := none }

def wSnipe : Watch := { wBase with snipeMode := true }

def stBase : Settings := { apiKey := some "key0", authToken := some "auth0" }

def slotMain : Slot := { start := "2024-05-01 19:00:00", configToken := "tok1" }

/-- An API that always offers exactly `slotMain` and books successfully. -/
def apiOne : Api :=
  { find := fun _ _ _ => .ok [⟨[slotMain]⟩],
    getDetails := fun _ _ _ => .ok "bt1",
    book := fun _ => .ok () }

def dbEmpty : DB := { watches := [wSnipe], foundSlots := [], activity := [], nextSlotId := 1 }

/-! ## Claim C4 — time-window filtering is inclusive on both ends -/

/-- Claim C4: for a slot with a nonempty start timestamp and a watch with
both window boundaries set, the slot is kept iff its time-of-day `t` (the
first five characters of the time component) satisfies
`timeEarliest ≤ t ≤ timeLatest` in the lexicographic string order; in
particular both boundaries are inclusive. -/
theorem slotKept_iff_window (w : Watch) (s : Slot)
    (hs : s.start.isEmpty = false)
    (he : truthy w.timeEarliest = true) (hl : truthy w.timeLatest = true) :
    slotKept w s = true ↔
      (w.timeEarliest.getD "" ≤ (timePartOf s.start).take 5 ∧
       (timePartOf s.start).take 5 ≤ w.timeLatest.getD "") :=
  slotKept_iff_aux w s hs he hl

/-- Witness for C4 at the concrete slot `19:30` in window `[17:00, 22:00]`. -/
theorem slotKept_iff_window_witness :
    slotKept wBase { start := "2024-05-01 19:30:00", configToken := "c" } = true ↔
      (wBase.timeEarliest.getD "" ≤ (timePartOf "2024-05-01 19:30:00").take 5 ∧
       (timePartOf "2024-05-01 19:30:00").take 5 ≤ wBase.timeLatest.getD "") :=
  slotKept_iff_window wBase { start := "2024-05-01 19:30:00", configToken := "c" }
    (by decide) (by decide) (by decide)

/-! ## Claim C5 — the claimed half-open window -/

def slotLatest : Slot := { start := "2024-05-01 22:00:00", configToken := "c" }

/-- Claim C5 (counterexample): the claim calls the window half-open
`[timeEarliest, timeLatest)`, so a slot at exactly `timeLatest = "22:00"`
would have to be discarded; the code keeps it. -/
theorem upper_boundary_exclusive_counterexample :
    wBase.timeLatest = some "22:00" ∧
    (timePartOf slotLatest.start).take 5 = "22:00" ∧
    slotKept wBase slotLatest = true := by decide

/-- Claim C5 (amended): the window is closed at the top — a slot whose
time-of-day equals `timeLatest` (and is not below `timeEarliest`) is kept
by the time-window filter. -/
theorem upper_boundary_inclusive (w : Watch) (s : Slot)
    (hs : s.start.isEmpty = false)
    (he : truthy w.timeEarliest = true) (hl : truthy w.timeLatest = true)
    (heq : (timePartOf s.start).take 5 = w.timeLatest.getD "")
    (hge : strLt ((timePartOf s.start).take 5) (w.timeEarliest.getD "") = false) :
    slotKept w s = true :=
  (slotKept_iff_aux w s hs he hl).mpr
    ⟨not_lt.mp fun hc => Bool.noConfusion (((strLt_iff_lt _ _).mpr hc).symm.trans hge),
     le_of_eq heq⟩

/-- Witness for the amended C5 at the boundary slot `22:00`. -/
theorem upper_boundary_inclusive_witness : slotKept wBase slotLatest = true :=
  upper_boundary_inclusive wBase slotLatest
    (by decide) (by decide) (by decide) (by decide) (by decide)

/-! ## Claim C10 — the filter only runs with a full window and timestamp -/

/-- Claim C10: the time-window filter applies only when both
`timeEarliest` and `timeLatest` are truthy (neither null nor empty); if
either is missing, or the slot has an empty start timestamp, the slot
passes to deduplication regardless of its time-of-day. -/
theorem no_window_no_filter (w : Watch) (s : Slot)
    (h : truthy w.timeEarliest = false ∨ truthy w.timeLatest = false ∨
         s.start.isEmpty = true) :
    slotKept w s = true := by
  by_cases hs : s.start.isEmpty = true
  · simp [slotKept, hs]
  · rcases h with h | h | h
    · simp [slotKept, hs, h]
    · simp [slotKept, hs, h]
    · exact absurd h hs

def wNoWindow : Watch := { wBase with timeEarliest := none }

/-- Witness for C10: a `03:00` slot passes when `timeEarliest` is null. -/
theorem no_window_no_filter_witness :
    slotKept wNoWindow { start := "2024-05-01 03:00:00", configToken := "c" } = true :=
  no_window_no_filter wNoWindow { start := "2024-05-01 03:00:00", configToken := "c" }
    (Or.inl (by decide))

/-! ## Claim C6 — missing api_key makes the scan a no-op -/

/-- Claim C6: with no `api_key` configured (row absent or empty), scanning
all active watches issues no remote call at all and leaves the entire
store — in particular the `lastChecked` of every watch — unchanged. -/
theorem no_api_key_noop (api : Api) (now : String) (st : Settings) (db : DB)
    (h : truthy st.apiKey = false) :
    check_all_watches api now st db = (db, []) := by
  unfold check_all_watches
  rw [h]
  simp

def stNoKey : Settings := { apiKey := none, authToken := some "auth0" }

/-- Witness for C6 with an absent `api_key`. -/
theorem no_api_key_noop_witness :
    check_all_watches apiOne "T0" stNoKey dbEmpty = (dbEmpty, []) :=
  no_api_key_noop apiOne "T0" stNoKey dbEmpty (by decide)

/-! ## Claim C2 — book is called iff details yield a token; errors change nothing -/

/-- Step 1 of `try_snipe` yielded a usable token: the details call
succeeded and its `book_token.value` is non-empty. -/
def detailsTokenOk : Except String String → Bool
  | .error _ => false
  | .ok tok => !tok.isEmpty

/-- Overall success of a snipe attempt against `api` (details ok,
non-empty token, booking accepted). -/
def snipeOk (api : Api) (w : Watch) (configToken day : String) : Bool :=
  match api.getDetails configToken day w.partySize with
  | .error _ => false
  | .ok tok =>
    if tok.isEmpty then false
    else
      match api.book tok with
      | .error _ => false
      | .ok _ => true

/-- Claim C2: `book` is invoked exactly when the details call succeeded
with a non-empty book token; and whenever the attempt fails (details
error, missing token, or book error) the sequencer appends an `error`
activity event after the `snipe` one and leaves `found_slots` (hence every
`booked` flag) and `watches` untouched. -/
theorem try_snipe_book_iff (api : Api) (w : Watch) (ct day ts : String)
    (st : Settings) (db : DB) :
    ((∃ tok, ApiCall.book tok ∈ (try_snipe api w ct day ts st db).2) ↔
      detailsTokenOk (api.getDetails ct day w.partySize) = true) ∧
    (snipeOk api w ct day = false →
      (try_snipe api w ct day ts st db).1.foundSlots = db.foundSlots ∧
      (try_snipe api w ct day ts st db).1.watches = db.watches ∧
      ∃ e, (try_snipe api w ct day ts st db).1.activity =
        db.activity ++ [⟨some w.id, "snipe", snipeAttemptMsg w day ts⟩,
                        ⟨some w.id, "error", e⟩]) := by
  cases hd : api.getDetails ct day w.partySize with
  | error e =>
    refine ⟨⟨fun ⟨tok, hm⟩ => ?_, fun h => ?_⟩, fun _ => ?_⟩
    · simp [try_snipe, hd] at hm
    · simp [detailsTokenOk, hd] at h
    · exact ⟨by simp [try_snipe, hd], by simp [try_snipe, hd],
        "Failed to get details: " ++ e, by simp [try_snipe, hd, log_activity]⟩
  | ok tok =>
    by_cases he : tok.isEmpty = true
    · refine ⟨⟨fun ⟨tok2, hm⟩ => ?_, fun h => ?_⟩, fun _ => ?_⟩
      · simp [try_snipe, hd, he] at hm
      · simp [detailsTokenOk, hd, he] at h
      · exact ⟨by simp [try_snipe, hd, he], by simp [try_snipe, hd, he],
          "No book token received", by simp [try_snipe, hd, he, log_activity]⟩
    · cases hb : api.book tok with
      | error e =>
        refine ⟨⟨fun _ => ?_, fun _ => ⟨tok, ?_⟩⟩, fun _ => ?_⟩
        · simp [detailsTokenOk, hd, he]
        · simp [try_snipe, hd, he, hb]
        · exact ⟨by simp [try_snipe, hd, he, hb], by simp [try_snipe, hd, he, hb],
            "Booking failed: " ++ e, by simp [try_snipe, hd, he, hb, log_activity]⟩
      | ok u =>
        refine ⟨⟨fun _ => ?_, fun _ => ⟨tok, ?_⟩⟩, fun h => ?_⟩
        · simp [detailsTokenOk, hd, he]
        · simp [try_snipe, hd, he, hb]
        · simp [snipeOk, hd, he, hb] at h

def apiDetailsFail : Api :=
  { find := fun _ _ _ => .ok [⟨[slotMain]⟩],
    getDetails := fun _ _ _ => .error "boom",
    book := fun _ => .ok () }

/-- Witness for C2: a failing details call leaves the store unchanged and
appends an error event. -/
theorem try_snipe_book_iff_witness :
    (try_snipe apiDetailsFail wSnipe "tok1" "2024-05-01" "2024-05-01 19:00:00"
        stBase dbEmpty).1.foundSlots = dbEmpty.foundSlots ∧
    (try_snipe apiDetailsFail wSnipe "tok1" "2024-05-01" "2024-05-01 19:00:00"
        stBase dbEmpty).1.watches = dbEmpty.watches ∧
    ∃ e, (try_snipe apiDetailsFail wSnipe "tok1" "2024-05-01" "2024-05-01 19:00:00"
        stBase dbEmpty).1.activity =
      dbEmpty.activity ++
        [⟨some wSnipe.id, "snipe", snipeAttemptMsg wSnipe "2024-05-01" "2024-05-01 19:00:00"⟩,
         ⟨some wSnipe.id, "error", e⟩] :=
  (try_snipe_book_iff apiDetailsFail wSnipe "tok1" "2024-05-01" "2024-05-01 19:00:00"
    stBase dbEmpty).2 (by decide)

/-! ## Claim C7 — booking success marks exactly the matching rows -/

def fsMain : FoundSlot :=
  { id := 1, watchId := 7, venueName := "Carbone", date := "2024-05-01",
    time := "2024-05-01 19:00:00", partySize := 2, configToken := "tok1", booked := false }

def fsOther : FoundSlot := { fsMain with id := 2, time := "2024-05-01 20:00:00" }

def dbTwoRows : DB :=
  { watches := [wSnipe], foundSlots := [fsMain, fsOther], activity := [], nextSlotId := 3 }

/-- Claim C7: on a successful booking the sequencer logs a `booked` event
and sets `booked` on exactly the `found_slots` rows matching
(watch id, date, time); every row is kept, rows with a different key are
returned verbatim, and the watches table is untouched. -/
theorem try_snipe_success_marks_matching (api : Api) (w : Watch) (ct day ts : String)
    (st : Settings) (db : DB) (tok : String)
    (hd : api.getDetails ct day w.partySize = .ok tok) (ht : tok.isEmpty = false)
    (hb : api.book tok = .ok ()) :
    (try_snipe api w ct day ts st db).1.activity =
      db.activity ++ [⟨some w.id, "snipe", snipeAttemptMsg w day ts⟩,
                      ⟨some w.id, "booked", bookedMsg w day ts⟩] ∧
    (try_snipe api w ct day ts st db).1.foundSlots =
      db.foundSlots.map (fun fs =>
        if fs.watchId == w.id && fs.date == day && fs.time == ts
        then { fs with booked := true } else fs) ∧
    (try_snipe api w ct day ts st db).1.watches = db.watches ∧
    (∀ fs ∈ db.foundSlots,
      (fs.watchId == w.id && fs.date == day && fs.time == ts) = false →
        fs ∈ (try_snipe api w ct day ts st db).1.foundSlots) := by
  simp only [try_snipe, hd, ht, hb, Bool.false_eq_true, if_false, log_activity_foundSlots,
    log_activity_watches, log_activity_activity, List.append_assoc, List.singleton_append]
  refine ⟨trivial, trivial, trivial, fun fs hm hne => ?_⟩
  exact List.mem_map.mpr ⟨fs, hm, by simp [hne]⟩

/-- Witness for C7 on a store holding a matching and a non-matching row. -/
theorem try_snipe_success_marks_matching_witness :
    (try_snipe apiOne wSnipe "tok1" "2024-05-01" "2024-05-01 19:00:00"
        stBase dbTwoRows).1.activity =
      dbTwoRows.activity ++
        [⟨some wSnipe.id, "snipe", snipeAttemptMsg wSnipe "2024-05-01" "2024-05-01 19:00:00"⟩,
         ⟨some wSnipe.id, "booked", bookedMsg wSnipe "2024-05-01" "2024-05-01 19:00:00"⟩] ∧
    (try_snipe apiOne wSnipe "tok1" "2024-05-01" "2024-05-01 19:00:00"
        stBase dbTwoRows).1.foundSlots =
      dbTwoRows.foundSlots.map (fun fs =>
        if fs.watchId == wSnipe.id && fs.date == "2024-05-01" && fs.time == "2024-05-01 19:00:00"
        then { fs with booked := true } else fs) ∧
    (try_snipe apiOne wSnipe "tok1" "2024-05-01" "2024-05-01 19:00:00"
        stBase dbTwoRows).1.watches = dbTwoRows.watches ∧
    (∀ fs ∈ dbTwoRows.foundSlots,
      (fs.watchId == wSnipe.id && fs.date == "2024-05-01" &&
        fs.time == "2024-05-01 19:00:00") = false →
        fs ∈ (try_snipe apiOne wSnipe "tok1" "2024-05-01" "2024-05-01 19:00:00"
          stBase dbTwoRows).1.foundSlots) :=
  try_snipe_success_marks_matching apiOne wSnipe "tok1" "2024-05-01" "2024-05-01 19:00:00"
    stBase dbTwoRows "bt1" (by decide) (by decide) (by decide)

/-! ## Claim C8 — per-watch failures are logged and isolated -/

/-- Claim C8: if scanning one watch fails with error `e`, the loop over
watches logs an `error` activity event tagged with the id of that watch and
continues with the remaining watches; nothing propagates (the loop is a
total function). -/
theorem watch_failure_isolated (api : Api) (now : String) (st : Settings)
    (w : Watch) (rest : List Watch) (db : DB) (e : String)
    (h : check_watch api now w st db = .error e) :
    runWatches api now st (w :: rest) db =
      runWatches api now st rest
        (log_activity db (some w.id) "error"
          ("Error checking " ++ w.venueName ++ ": " ++ e)) := by
  simp only [runWatches, h]

def wBad : Watch := { wBase with id := 9, dateStart := "garbage", venueName := "Bad" }

/-- Witness for C8 with a malformed `date_start` (the reversed-range case
raises nothing at all, so the malformed date is the failing case). -/
theorem watch_failure_isolated_witness :
    runWatches apiOne "T0" stBase [wBad] dbEmpty =
      runWatches apiOne "T0" stBase []
        (log_activity dbEmpty (some wBad.id) "error"
          ("Error checking " ++ wBad.venueName ++ ": " ++
            ("Invalid isoformat string: " ++ "garbage"))) :=
  watch_failure_isolated apiOne "T0" stBase wBad [] dbEmpty
    ("Invalid isoformat string: " ++ "garbage") (by decide)

/-! ## Claim C9 — fully booked keys count as new again -/

lemma covered_false_of_all_booked (db : DB) (wid : Nat) (day t : String)
    (hb : ∀ r ∈ db.foundSlots, r.watchId = wid → r.date = day → r.time = t →
      r.booked = true) :
    covered db wid day t = false := by
  rw [covered, List.any_eq_false]
  intro r hr hcontra
  simp only [Bool.and_eq_true, beq_iff_eq] at hcontra
  obtain ⟨⟨⟨h1, h2⟩, h3⟩, h4⟩ := hcontra
  exact Bool.noConfusion ((hb r hr h1 h2 h3).symm.trans h4)

/-- Claim C9: the dedup lookup only sees unbooked rows, so when every
ledger record for (watch id, date, time) is booked, a sighted slot is
treated as brand new: the scanner inserts a fresh row, logs another
`found` event, and (snipe mode on, config token present, auth token set)
invokes the Snipe Sequencer again. -/
theorem booked_records_treated_as_new (api : Api) (w : Watch) (st : Settings)
    (day : String) (s : Slot) (db : DB)
    (hk : slotKept w s = true)
    (hb : ∀ r ∈ db.foundSlots, r.watchId = w.id → r.date = day → r.time = s.start →
      r.booked = true)
    (hm : w.snipeMode = true) (hc : s.configToken.isEmpty = false)
    (ha : truthy st.authToken = true) :
    processSlot api w st day s db =
      try_snipe api w s.configToken day s.start st
        (log_activity { db with
            foundSlots := db.foundSlots ++ [newSlotRow db w day s],
            nextSlotId := db.nextSlotId + 1 }
          (some w.id) "found" (foundMsg w day s.start)) := by
  have hcov := covered_false_of_all_booked db w.id day s.start hb
  simp only [processSlot, hk, hcov, hm, hc, ha, Bool.not_false, Bool.and_self,
    Bool.true_and, Bool.false_eq_true, if_false, if_true]

def fsBooked : FoundSlot := { fsMain with booked := true }

def dbBooked : DB :=
  { watches := [wSnipe], foundSlots := [fsBooked], activity := [], nextSlotId := 2 }

/-- Witness for C9 on a ledger whose only record for the key is booked. -/
theorem booked_records_treated_as_new_witness :
    processSlot apiOne wSnipe stBase "2024-05-01" slotMain dbBooked =
      try_snipe apiOne wSnipe slotMain.configToken "2024-05-01" slotMain.start stBase
        (log_activity { dbBooked with
            foundSlots := dbBooked.foundSlots ++ [newSlotRow dbBooked wSnipe "2024-05-01" slotMain],
            nextSlotId := dbBooked.nextSlotId + 1 }
          (some wSnipe.id) "found" (foundMsg wSnipe "2024-05-01" slotMain.start)) :=
  booked_records_treated_as_new apiOne wSnipe stBase "2024-05-01" slotMain dbBooked
    (by decide) (by decide) (by decide) (by decide) (by decide)

/-! ## Claim C1 — covered slots are skipped, not re-sniped -/

def dbUnbooked : DB :=
  { watches := [wSnipe], foundSlots := [fsMain], activity := [], nextSlotId := 2 }

/-- Claim C1 (counterexample): snipe mode and auth token are on, the API
offers a slot that already has an unbooked ledger record, and the scan of
the watch performs no details/book call and logs no `snipe` event at all —
the Snipe Sequencer is not invoked for a non-new slot. -/
theorem resnipe_each_cycle_counterexample :
    wSnipe.snipeMode = true ∧ truthy stBase.authToken = true ∧
    apiOne.find wSnipe.venueId "2024-05-01" wSnipe.partySize = .ok [⟨[slotMain]⟩] ∧
    covered dbUnbooked wSnipe.id "2024-05-01" slotMain.start = true ∧
    (check_watch apiOne "T0" wSnipe stBase dbUnbooked).toOption.map
      (fun r => (r.1.activity, r.1.foundSlots, r.2)) =
      some ([], [fsMain], [ApiCall.find "v1" "2024-05-01" 2]) := by decide

/-- Claim C1 (amended): a slot whose (watch id, date, time) already has an
unbooked ledger record is skipped entirely on this cycle — no insert, no
activity, no API call, and in particular no Snipe Sequencer invocation;
snipe eligibility is only evaluated for newly inserted slots. -/
theorem covered_slot_skipped (api : Api) (w : Watch) (st : Settings)
    (day : String) (s : Slot) (db : DB)
    (h : covered db w.id day s.start = true) :
    processSlot api w st day s db = (db, []) := by
  by_cases hk : slotKept w s = true
  · simp [processSlot, hk, h]
  · simp [processSlot, hk]

/-- Witness for the amended C1. -/
theorem covered_slot_skipped_witness :
    processSlot apiOne wSnipe stBase "2024-05-01" slotMain dbUnbooked = (dbUnbooked, []) :=
  covered_slot_skipped apiOne wSnipe stBase "2024-05-01" slotMain dbUnbooked (by decide)

/-! ## Claim C3 — scan idempotence

The deduplication invariant: at most one unbooked ledger row per
(watch id, date, time) key, and re-scanning the same slot set with snipe
mode off adds nothing. -/

/-- Number of unbooked ledger rows for one (watch id, date, time) key. -/
def keyCount (db : DB) (wid : Nat) (day t : String) : Nat :=
  (db.foundSlots.filter (fun r =>
    r.watchId == wid && r.date == day && r.time == t && r.booked == false)).length

/-- At most one unbooked ledger row per key: the shape "exactly one
`FoundSlot` per distinct (watch, date, time), never two" requires. -/
def dedupInv (db : DB) : Prop :=
  ∀ wid day t, keyCount db wid day t ≤ 1

lemma covered_false_iff (db : DB) (wid : Nat) (day t : String) :
    covered db wid day t = false ↔ keyCount db wid day t = 0 := by
  rw [covered, keyCount, List.any_eq_false, List.length_eq_zero, List.filter_eq_nil_iff]

/-- The insert branch of `processSlot` in closed form: a kept, uncovered
slot with snipe mode off appends one unbooked row and one `found` event. -/
lemma processSlot_insert_eq (api : Api) (w : Watch) (st : Settings)
    (day : String) (s : Slot) (db : DB) (hk : slotKept w s = true)
    (hc : covered db w.id day s.start = false) (hs : w.snipeMode = false) :
    processSlot api w st day s db =
      (log_activity { db with
          foundSlots := db.foundSlots ++ [newSlotRow db w day s],
          nextSlotId := db.nextSlotId + 1 }
        (some w.id) "found" (foundMsg w day s.start), []) := by
  simp only [processSlot, hk, hc, hs, Bool.false_and, Bool.false_eq_true, if_false, if_true]

/-- With snipe mode off, `processSlot` only appends rows, so a covered key
stays covered. -/
lemma processSlot_covered_mono (api : Api) (w : Watch) (st : Settings)
    (day : String) (s : Slot) (db : DB) (hs : w.snipeMode = false)
    (wid : Nat) (d t : String) (h : covered db wid d t = true) :
    covered (processSlot api w st day s db).1 wid d t = true := by
  cases hk : slotKept w s with
  | false => simpa [processSlot, hk] using h
  | true =>
    cases hc : covered db w.id day s.start with
    | true => simpa [processSlot, hk, hc] using h
    | false =>
      rw [processSlot_insert_eq api w st day s db hk hc hs]
      rw [covered] at h ⊢
      simp only [log_activity_foundSlots, List.any_append, h, Bool.true_or]

/-- With snipe mode off, once `processSlot` has handled a kept slot its
key is covered. -/
lemma processSlot_covers (api : Api) (w : Watch) (st : Settings)
    (day : String) (s : Slot) (db : DB) (hs : w.snipeMode = false)
    (hk : slotKept w s = true) :
    covered (processSlot api w st day s db).1 w.id day s.start = true := by
  cases hc : covered db w.id day s.start with
  | true => simp [processSlot, hk, hc]
  | false =>
    rw [processSlot_insert_eq api w st day s db hk hc hs]
    rw [covered]
    simp [List.any_append, newSlotRow]

/-- A slot that is filtered out, or whose key is already covered, leaves
state and trace unchanged. -/
lemma processSlot_skip (api : Api) (w : Watch) (st : Settings)
    (day : String) (s : Slot) (db : DB)
    (h : slotKept w s = false ∨ covered db w.id day s.start = true) :
    processSlot api w st day s db = (db, []) := by
  rcases h with h | h
  · simp [processSlot, h]
  · cases hk : slotKept w s with
    | false => simp [processSlot, hk]
    | true => simp [processSlot, hk, h]

/-- `processSlot` keeps the at-most-one-unbooked-row invariant (snipe off). -/
lemma processSlot_dedupInv (api : Api) (w : Watch) (st : Settings)
    (day : String) (s : Slot) (db : DB) (hs : w.snipeMode = false)
    (h : dedupInv db) : dedupInv (processSlot api w st day s db).1 := by
  cases hk : slotKept w s with
  | false => simpa [processSlot, hk] using h
  | true =>
    cases hc : covered db w.id day s.start with
    | true => simpa [processSlot, hk, hc] using h
    | false =>
      intro wid d t
      rw [processSlot_insert_eq api w st day s db hk hc hs]
      rw [keyCount]
      simp only [log_activity_foundSlots, List.filter_append, List.length_append]
      by_cases hp : ((newSlotRow db w day s).watchId == wid &&
          (newSlotRow db w day s).date == d && (newSlotRow db w day s).time == t &&
          (newSlotRow db w day s).booked == false) = true
      · have hkey : w.id = wid ∧ day = d ∧ s.start = t := by
          simp only [newSlotRow, Bool.and_eq_true, beq_iff_eq] at hp
          exact ⟨hp.1.1.1, hp.1.1.2, hp.1.2⟩
        obtain ⟨e1, e2, e3⟩ := hkey
        subst e1
        subst e2
        subst e3
        have h0 := (covered_false_iff db w.id day s.start).mp hc
        rw [keyCount] at h0
        rw [h0]
        simpa using List.length_filter_le _ [newSlotRow db w day s]
      · rw [Bool.not_eq_true] at hp
        have hnil : List.filter (fun r =>
            r.watchId == wid && r.date == d && r.time == t && r.booked == false)
            [newSlotRow db w day s] = [] := by
          simp only [List.filter_cons, hp, Bool.false_eq_true, if_false, List.filter_nil]
        have hKey := h wid d t
        rw [keyCount] at hKey
        rw [hnil]
        simpa using hKey

/-- Every kept slot of `ss` has an unbooked ledger row in `db`. -/
def slotsCov (w : Watch) (day : String) (ss : List Slot) (db : DB) : Prop :=
  ∀ s ∈ ss, slotKept w s = true → covered db w.id day s.start = true

lemma runSlots_covered_mono (api : Api) (w : Watch) (st : Settings) (day : String)
    (ss : List Slot) (db : DB) (hs : w.snipeMode = false)
    (wid : Nat) (d t : String) (h : covered db wid d t = true) :
    covered (runSlots api w st day ss db).1 wid d t = true := by
  induction ss generalizing db with
  | nil => simpa [runSlots] using h
  | cons s rest ih =>
    simp only [runSlots]
    exact ih _ (processSlot_covered_mono api w st day s db hs wid d t h)

lemma runSlots_dedupInv (api : Api) (w : Watch) (st : Settings) (day : String)
    (ss : List Slot) (db : DB) (hs : w.snipeMode = false)
    (h : dedupInv db) : dedupInv (runSlots api w st day ss db).1 := by
  induction ss generalizing db with
  | nil => simpa [runSlots] using h
  | cons s rest ih =>
    simp only [runSlots]
    exact ih _ (processSlot_dedupInv api w st day s db hs h)

lemma runSlots_covers (api : Api) (w : Watch) (st : Settings) (day : String)
    (ss : List Slot) (db : DB) (hs : w.snipeMode = false) :
    slotsCov w day ss (runSlots api w st day ss db).1 := by
  induction ss generalizing db with
  | nil => intro s hmem; cases hmem
  | cons s rest ih =>
    intro s2 hm hk2
    simp only [runSlots]
    rcases List.mem_cons.mp hm with rfl | hm2
    · exact runSlots_covered_mono api w st day rest _ hs _ _ _
        (processSlot_covers api w st day s2 db hs hk2)
    · exact ih _ s2 hm2 hk2

lemma runSlots_noop (api : Api) (w : Watch) (st : Settings) (day : String)
    (ss : List Slot) (db : DB) (h : slotsCov w day ss db) :
    runSlots api w st day ss db = (db, []) := by
  induction ss with
  | nil => rfl
  | cons s rest ih =>
    have h1 : processSlot api w st day s db = (db, []) := by
      cases hk : slotKept w s with
      | false => exact processSlot_skip api w st day s db (Or.inl hk)
      | true =>
        exact processSlot_skip api w st day s db
          (Or.inr (h s (List.mem_cons_self s rest) hk))
    have h2 := ih (fun s2 hm hk2 => h s2 (List.mem_cons_of_mem s hm) hk2)
    simp [runSlots, h1, h2]

/-- Every kept slot of every venue of `vs` has an unbooked row in `db`. -/
def venuesCov (w : Watch) (day : String) (vs : List Venue) (db : DB) : Prop :=
  ∀ v ∈ vs, slotsCov w day v.slots db

lemma runVenues_covered_mono (api : Api) (w : Watch) (st : Settings) (day : String)
    (vs : List Venue) (db : DB) (hs : w.snipeMode = false)
    (wid : Nat) (d t : String) (h : covered db wid d t = true) :
    covered (runVenues api w st day vs db).1 wid d t = true := by
  induction vs generalizing db with
  | nil => simpa [runVenues] using h
  | cons v rest ih =>
    simp only [runVenues]
    exact ih _ (runSlots_covered_mono api w st day v.slots db hs wid d t h)

lemma runVenues_dedupInv (api : Api) (w : Watch) (st : Settings) (day : String)
    (vs : List Venue) (db : DB) (hs : w.snipeMode = false)
    (h : dedupInv db) : dedupInv (runVenues api w st day vs db).1 := by
  induction vs generalizing db with
  | nil => simpa [runVenues] using h
  | cons v rest ih =>
    simp only [runVenues]
    exact ih _ (runSlots_dedupInv api w st day v.slots db hs h)

lemma runVenues_covers (api : Api) (w : Watch) (st : Settings) (day : String)
    (vs : List Venue) (db : DB) (hs : w.snipeMode = false) :
    venuesCov w day vs (runVenues api w st day vs db).1 := by
  induction vs generalizing db with
  | nil => intro v hmem; cases hmem
  | cons v rest ih =>
    intro v2 hm s hsm hk
    simp only [runVenues]
    rcases List.mem_cons.mp hm with rfl | hm2
    · exact runVenues_covered_mono api w st day rest _ hs _ _ _
        (runSlots_covers api w st day v2.slots db hs s hsm hk)
    · exact ih _ v2 hm2 s hsm hk

lemma runVenues_noop (api : Api) (w : Watch) (st : Settings) (day : String)
    (vs : List Venue) (db : DB) (h : venuesCov w day vs db) :
    runVenues api w st day vs db = (db, []) := by
  induction vs with
  | nil => rfl
  | cons v rest ih =>
    have h1 := runSlots_noop api w st day v.slots db (h v (List.mem_cons_self v rest))
    have h2 := ih (fun v2 hm => h v2 (List.mem_cons_of_mem v hm))
    simp [runVenues, h1, h2]

/-- Every kept slot the API offers for `day` is covered in `db`. -/
def dayCov (api : Api) (w : Watch) (day : String) (db : DB) : Prop :=
  ∀ venues, api.find w.venueId day w.partySize = .ok venues →
    venuesCov w day venues db

lemma processDay_covered_mono (api : Api) (w : Watch) (st : Settings) (day : String)
    (db : DB) (hs : w.snipeMode = false)
    (wid : Nat) (d t : String) (h : covered db wid d t = true) :
    covered (processDay api w st day db).1 wid d t = true := by
  cases hf : api.find w.venueId day w.partySize with
  | error e => simpa [processDay, hf] using h
  | ok venues =>
    simp only [processDay, hf]
    exact runVenues_covered_mono api w st day venues db hs wid d t h

lemma processDay_dedupInv (api : Api) (w : Watch) (st : Settings) (day : String)
    (db : DB) (hs : w.snipeMode = false)
    (h : dedupInv db) : dedupInv (processDay api w st day db).1 := by
  cases hf : api.find w.venueId day w.partySize with
  | error e => simpa [processDay, hf] using h
  | ok venues =>
    simp only [processDay, hf]
    exact runVenues_dedupInv api w st day venues db hs h

lemma processDay_covers (api : Api) (w : Watch) (st : Settings) (day : String)
    (db : DB) (hs : w.snipeMode = false) :
    dayCov api w day (processDay api w st day db).1 := by
  intro venues hf
  simp only [processDay, hf]
  exact runVenues_covers api w st day venues db hs

lemma processDay_noop (api : Api) (w : Watch) (st : Settings) (day : String)
    (db : DB) (h : dayCov api w day db) :
    (processDay api w st day db).1 = db := by
  cases hf : api.find w.venueId day w.partySize with
  | error e => simp [processDay, hf]
  | ok venues =>
    have h2 := runVenues_noop api w st day venues db (h venues hf)
    simp [processDay, hf, h2]

/-- Every kept slot the API offers for any of `days` is covered in `db`. -/
def daysCov (api : Api) (w : Watch) (days : List Nat) (db : DB) : Prop :=
  ∀ d ∈ days, dayCov api w (ordinalToIso d) db

lemma runDays_covered_mono (api : Api) (w : Watch) (st : Settings)
    (days : List Nat) (db : DB) (hs : w.snipeMode = false)
    (wid : Nat) (d t : String) (h : covered db wid d t = true) :
    covered (runDays api w st days db).1 wid d t = true := by
  induction days generalizing db with
  | nil => simpa [runDays] using h
  | cons d0 rest ih =>
    simp only [runDays]
    exact ih _ (processDay_covered_mono api w st (ordinalToIso d0) db hs wid d t h)

lemma runDays_dedupInv (api : Api) (w : Watch) (st : Settings)
    (days : List Nat) (db : DB) (hs : w.snipeMode = false)
    (h : dedupInv db) : dedupInv (runDays api w st days db).1 := by
  induction days generalizing db with
  | nil => simpa [runDays] using h
  | cons d0 rest ih =>
    simp only [runDays]
    exact ih _ (processDay_dedupInv api w st (ordinalToIso d0) db hs h)

lemma runDays_covers (api : Api) (w : Watch) (st : Settings)
    (days : List Nat) (db : DB) (hs : w.snipeMode = false) :
    daysCov api w days (runDays api w st days db).1 := by
  induction days generalizing db with
  | nil => intro d hmem; cases hmem
  | cons d0 rest ih =>
    intro d2 hm
    simp only [runDays]
    rcases List.mem_cons.mp hm with rfl | hm2
    · intro venues hf v hv s hsm hk
      exact runDays_covered_mono api w st rest _ hs _ _ _
        (processDay_covers api w st (ordinalToIso d2) db hs venues hf v hv s hsm hk)
    · exact ih _ d2 hm2

lemma runDays_noop (api : Api) (w : Watch) (st : Settings)
    (days : List Nat) (db : DB) (h : daysCov api w days db) :
    (runDays api w st days db).1 = db := by
  induction days with
  | nil => rfl
  | cons d0 rest ih =>
    have h1 := processDay_noop api w st (ordinalToIso d0) db
      (h d0 (List.mem_cons_self d0 rest))
    have h2 := ih (fun d2 hm => h d2 (List.mem_cons_of_mem d0 hm))
    simp only [runDays, h1]
    exact h2

@[simp] lemma setLastChecked_foundSlots (db : DB) (wid : Nat) (now : String) :
    (setLastChecked db wid now).foundSlots = db.foundSlots := rfl

lemma covered_setLastChecked (db : DB) (wid : Nat) (now : String)
    (wid2 : Nat) (d t : String) :
    covered (setLastChecked db wid now) wid2 d t = covered db wid2 d t := rfl

lemma keyCount_setLastChecked (db : DB) (wid : Nat) (now : String)
    (wid2 : Nat) (d t : String) :
    keyCount (setLastChecked db wid now) wid2 d t = keyCount db wid2 d t := rfl

def apiTwice : Api :=
  { find := fun _ _ _ => .ok [⟨[slotMain]⟩],
    getDetails := fun _ _ _ => .ok "bt1",
    book := fun _ => .ok () }

/-- Claim C3 (counterexample): with snipe mode on and a booking that
succeeds, the first scan books the slot (`booked=1`), so the unbooked
dedup lookup misses it and the second identical scan inserts a second row
for the same (watch id, date, time): two rows, not one.  The API client
is a pure function, hence returns the identical slot set on both scans. -/
theorem scan_twice_two_rows_counterexample :
    ((check_watch apiTwice "T0" wSnipe stBase
        { watches := [wSnipe], foundSlots := [], activity := [], nextSlotId := 1 }).toOption.bind
      (fun p => (check_watch apiTwice "T1" wSnipe stBase p.1).toOption.map
        (fun q => (q.1.foundSlots.filter (fun r =>
          r.watchId == wSnipe.id && r.date == "2024-05-01" &&
            r.time == "2024-05-01 19:00:00")).length))) = some 2 := by decide

/-- Claim C3 (amended): with snipe mode off (so no successful auto-book
can flip a row to booked), scanning a watch twice against the same pure
API client inserts nothing on the second pass — the dedup lookup finds the
unbooked record from the first pass — and the at-most-one-unbooked-row-per-
(watch, date, time) invariant is preserved.  (The counterexample shows the
unrestricted claim fails once a snipe succeeds in between.) -/
theorem scan_idempotent_snipe_off (api : Api) (now1 now2 : String) (w : Watch)
    (st : Settings) (db db1 : DB) (c1 : List ApiCall)
    (hs : w.snipeMode = false)
    (h1 : check_watch api now1 w st db = .ok (db1, c1)) :
    (dedupInv db → dedupInv db1) ∧
    ∃ db2 c2, check_watch api now2 w st db1 = .ok (db2, c2) ∧
      db2.foundSlots = db1.foundSlots := by
  cases hp1 : parseIsoDate w.dateStart with
  | none => simp [check_watch, hp1] at h1
  | some startOrd =>
    cases hp2 : parseIsoDate (effectiveDateEnd w) with
    | none => simp [check_watch, hp1, hp2] at h1
    | some endOrd =>
      simp only [check_watch, hp1, hp2, Except.ok.injEq, Prod.mk.injEq] at h1
      obtain ⟨hdb1, hc1⟩ := h1
      subst hdb1
      constructor
      · intro hinv
        intro wid d t
        rw [keyCount_setLastChecked]
        exact runDays_dedupInv api w st (dayRange startOrd endOrd) db hs hinv wid d t
      · have hcov : daysCov api w (dayRange startOrd endOrd)
            (setLastChecked (runDays api w st (dayRange startOrd endOrd) db).1 w.id now1) := by
          intro d hd venues hf v hv s hsm hk
          rw [covered_setLastChecked]
          exact runDays_covers api w st (dayRange startOrd endOrd) db hs d hd venues hf v hv s hsm hk
        have hnoop := runDays_noop api w st (dayRange startOrd endOrd)
          (setLastChecked (runDays api w st (dayRange startOrd endOrd) db).1 w.id now1) hcov
        refine ⟨setLastChecked
            (runDays api w st (dayRange startOrd endOrd)
              (setLastChecked (runDays api w st (dayRange startOrd endOrd) db).1 w.id now1)).1
            w.id now2,
          (runDays api w st (dayRange startOrd endOrd)
            (setLastChecked (runDays api w st (dayRange startOrd endOrd) db).1 w.id now1)).2,
          ?_, ?_⟩
        · simp only [check_watch, hp1, hp2]
        · rw [setLastChecked_foundSlots, hnoop]

/-- Witness for the amended C3 at the concrete one-slot scenario of the
end-to-end test in the specification. -/
theorem scan_idempotent_snipe_off_witness :
    (dedupInv { watches := [wBase], foundSlots := [], activity := [], nextSlotId := 1 } →
      dedupInv (setLastChecked
        (runDays apiOne wBase stBase (dayRange 739007 739007)
          { watches := [wBase], foundSlots := [], activity := [], nextSlotId := 1 }).1
        wBase.id "T0")) ∧
    ∃ db2 c2, check_watch apiOne "T1" wBase stBase
        (setLastChecked
          (runDays apiOne wBase stBase (dayRange 739007 739007)
            { watches := [wBase], foundSlots := [], activity := [], nextSlotId := 1 }).1
          wBase.id "T0") = .ok (db2, c2) ∧
      db2.foundSlots = (setLastChecked
        (runDays apiOne wBase stBase (dayRange 739007 739007)
          { watches := [wBase], foundSlots := [], activity := [], nextSlotId := 1 }).1
        wBase.id "T0").foundSlots :=
  scan_idempotent_snipe_off apiOne "T0" "T1" wBase stBase
    { watches := [wBase], foundSlots := [], activity := [], nextSlotId := 1 }
    (setLastChecked
      (runDays apiOne wBase stBase (dayRange 739007 739007)
        { watches := [wBase], foundSlots := [], activity := [], nextSlotId := 1 }).1
      wBase.id "T0")
    (runDays apiOne wBase stBase (dayRange 739007 739007)
      { watches := [wBase], foundSlots := [], activity := [], nextSlotId := 1 }).2
    (by decide) (by decide)

end ResySniper
